import Mathlib

/-!
Verification development for the CurrentSpotify repository: a shallow
embedding, in Lean 4, of the playback-position reconciliation engine
(seek detection and lyric-cursor tracking), the credential lifecycle
handling of the main polling loop, and the lyrics normalization and
caching helpers, together with theorems settling the specification
claims about them.

Conventions used throughout the embedding:
 - Python floats (timestamps, lyric offsets, playback progress) are
   modelled as rationals; the arithmetic performed by the source is
   mirrored exactly over the rationals.
 - Python exceptions on list indexing are modelled with `Option`.
 - Python string operations are modelled by character-level functions
   on `List Char` defined below, so that every definition evaluates
   inside the kernel.
-/

namespace Spotify

/-! ### Lyric cursor (spotify_now_playing_windows.py, lyric_for_time and friends)

`build_lyric_index` makes the dict `{"times": ..., "lines": ..., "pos_idx": 0}`,
`lyric_for_time` is the resolve operation (forward scan, then bounded
backtrack, both against `t_seconds + 0.05`), and the seek handling in
`main_loop` resets `pos_idx` to 0. -/

/-- The cursor state: the dict built by `build_lyric_index`.  The stored
position is an `Int` because the claims quantify over arbitrary stored
positions, including negative ones. -/
structure LyricIndex where
  times : List ℚ
  lines : List String
  pos_idx : Int
deriving DecidableEq

/-- `build_lyric_index(times_list, lines_list)`: position starts at 0. -/
def build_lyric_index (times : List ℚ) (lines : List String) : LyricIndex :=
  ⟨times, lines, 0⟩

/-- The 0.05-second overshoot epsilon added to the queried timestamp in
both loops of `lyric_for_time`. -/
def epsOvershoot : ℚ := 5 / 100

/-- The two clamping statements at the top of `lyric_for_time`:
`if idx < 0: idx = 0` and `if idx >= len(times): idx = max(0, len(times)-1)`. -/
def clampIdx (p : Int) (n : Nat) : Nat :=
  let i : Int := if p < 0 then 0 else p
  if (n : Int) ≤ i then n - 1 else i.toNat

/-- The forward-scan loop
`while idx + 1 < len(times) and times[idx + 1] <= t_seconds + 0.05: idx += 1`,
written with explicit fuel so that it evaluates in the kernel.  The fuel
`ts.length - idx` supplied by `advance` below never runs out: the loop
only continues while `idx + 1 < ts.length`. -/
def advanceFuel (ts : List ℚ) (c : ℚ) : Nat → Nat → Nat
  | 0, idx => idx
  | fuel + 1, idx =>
    if idx + 1 < ts.length ∧ ts.getD (idx + 1) 0 ≤ c then
      advanceFuel ts c fuel (idx + 1)
    else idx

/-- The forward-scan loop of `lyric_for_time`. -/
def advance (ts : List ℚ) (c : ℚ) (idx : Nat) : Nat :=
  advanceFuel ts c (ts.length - idx) idx

/-- The backtrack loop
`while idx > 0 and times[idx] > t_seconds + 0.05: idx -= 1`. -/
def backtrack (ts : List ℚ) (c : ℚ) : Nat → Nat
  | 0 => 0
  | i + 1 => if c < ts.getD (i + 1) 0 then backtrack ts c i else i + 1

/-- The index computed by one call of `lyric_for_time`: clamp the stored
position, scan forward, then backtrack. -/
def resolveIdx (times : List ℚ) (p : Int) (t : ℚ) : Nat :=
  backtrack times (t + epsOvershoot) (advance times (t + epsOvershoot) (clampIdx p times.length))

/-- The value of one `lyric_for_time` call: the returned text (`none`
models an out-of-bounds `lines[idx]` exception; the source returns `""`
when `lines` is empty), the returned index, and the cursor state after
the `index_struct["pos_idx"] = idx` write-back. -/
structure ResolveResult where
  text : Option String
  idx : Nat
  state : LyricIndex
deriving DecidableEq

/-- `lyric_for_time(index_struct, t_seconds)`. -/
def lyric_for_time (st : LyricIndex) (t : ℚ) : ResolveResult :=
  ⟨if st.lines.isEmpty then some "" else st.lines.get? (resolveIdx st.times st.pos_idx t),
   resolveIdx st.times st.pos_idx t,
   ⟨st.times, st.lines, (resolveIdx st.times st.pos_idx t : Int)⟩⟩

/-- The seek handling in `main_loop`: on a detected seek the code runs
`lyric_index["pos_idx"] = 0`.  The timestamp is not consulted. -/
def reset_for_seek (st : LyricIndex) (_t : ℚ) : LyricIndex :=
  ⟨st.times, st.lines, 0⟩

/-- Resolving a sequence of timestamps tick over tick, threading the
cursor state exactly as successive `lyric_for_time` calls do. -/
def resolveSeq : LyricIndex → List ℚ → List Nat
  | _, [] => []
  | st, t :: ts => (lyric_for_time st t).idx :: resolveSeq (lyric_for_time st t).state ts

/-! ### Seek detector (spotify_now_playing_windows.py, detect_seek)

`detect_seek(prev_progress, prev_time, current_progress)` reads the wall
clock via `time.time()`; the embedding passes that reading as the
explicit argument `now`.  Progress values are in milliseconds, clock
readings in seconds, exactly as in the source. -/

/-- `SEEK_THRESHOLD_MS = 1500`. -/
def SEEK_THRESHOLD_MS : ℚ := 1500

/-- `detect_seek`: `(False, 0)` without a prior snapshot; otherwise
`expected = prev_progress + (now - prev_time) * 1000.0`,
`delta = current_progress - expected`, seek iff `abs(delta)` exceeds the
threshold, and the signed `delta` is always returned. -/
def detect_seek (prev_progress : Option ℚ) (prev_time : ℚ) (current_progress : ℚ)
    (now : ℚ) : Bool × ℚ :=
  match prev_progress with
  | none => (false, 0)
  | some p =>
    (decide (SEEK_THRESHOLD_MS < |current_progress - (p + (now - prev_time) * 1000)|),
     current_progress - (p + (now - prev_time) * 1000))

/-! ### Character-level models of the Python string operations

The source manipulates strings with `split`, `strip`, `replace`,
`splitlines`, `join` and regular expressions.  They are modelled here by
structurally recursive functions on `List Char` so that every definition
reduces inside the kernel. -/

/-- `str.split(sep)` for a one-character separator:
splitting the empty string yields `[""]`, like Python. -/
def splitChar (sep : Char) : List Char → List (List Char)
  | [] => [[]]
  | c :: rest =>
    let r := splitChar sep rest
    if c = sep then [] :: r
    else
      match r with
      | [] => [[c]]
      | h :: t => (c :: h) :: t

/-- `str.split(sep)` on strings. -/
def pySplit (s : String) (sep : Char) : List String :=
  (splitChar sep s.toList).map String.mk

/-- `str.strip()`: drop leading and trailing whitespace. -/
def trimChars (cs : List Char) : List Char :=
  ((cs.dropWhile Char.isWhitespace).reverse.dropWhile Char.isWhitespace).reverse

/-- `str.strip()` on strings. -/
def pyStrip (s : String) : String :=
  String.mk (trimChars s.toList)

/-- `str.splitlines()` for newline-separated text: like splitting on
the newline character, except that a trailing newline contributes no
final empty line and the empty string has no lines. -/
def pySplitLines (s : String) : List String :=
  let parts := pySplit s '\n'
  if s = "" then []
  else if parts.getLast? = some "" then parts.dropLast
  else parts

/-- `sep.join(items)` on strings. -/
def pyJoin (sep : String) : List String → String
  | [] => ""
  | [x] => x
  | x :: y :: rest => x ++ sep ++ pyJoin sep (y :: rest)

/-- Joining chunks back with the separator character: used to model
`str.split(sep, 1)[1]`, the remainder after the first separator. -/
def joinWithChar (sep : Char) : List (List Char) → List Char
  | [] => []
  | [x] => x
  | x :: y :: rest => x ++ sep :: joinWithChar sep (y :: rest)

/-- Numeric value of a run of decimal digit characters. -/
def charsToNat (ds : List Char) : Nat :=
  ds.foldl (fun acc d => 10 * acc + (d.toNat - '0'.toNat)) 0

/-- Value of the digits that follow a decimal point: `fracOfDigits
['2','5'] = 1/4`. -/
def fracOfDigits : List Char → ℚ
  | [] => 0
  | d :: ds => ((d.toNat - '0'.toNat : Nat) + fracOfDigits ds) / 10

/-- A non-empty all-digit run parsed as a natural number, `none`
otherwise. -/
def digitsToNat? (cs : List Char) : Option Nat :=
  if cs ≠ [] ∧ cs.all Char.isDigit then some (charsToNat cs) else none

/-- Python `int(s)` on the decimal numerals the source feeds it:
optional surrounding whitespace, optional sign, digits. -/
def pyInt? (s : String) : Option Int :=
  match trimChars s.toList with
  | '-' :: rest => (digitsToNat? rest).map (fun n => -(n : Int))
  | '+' :: rest => (digitsToNat? rest).map (fun n => (n : Int))
  | cs => (digitsToNat? cs).map (fun n => (n : Int))

/-- Value of `intPart.fracPart` as a rational. -/
def decimalVal (intPart fracPart : List Char) : ℚ :=
  (charsToNat intPart : ℚ) + fracOfDigits fracPart

/-- Unsigned decimal numeral: digits with an optional point, at least
one digit overall (`"5"`, `"5."`, `".5"`, `"5.25"`). -/
def unsignedDecimal? (cs : List Char) : Option ℚ :=
  let intPart := cs.takeWhile Char.isDigit
  match cs.dropWhile Char.isDigit with
  | [] => if intPart = [] then none else some (decimalVal intPart [])
  | '.' :: frac =>
    if frac.all Char.isDigit ∧ (intPart ≠ [] ∨ frac ≠ []) then
      some (decimalVal intPart frac)
    else none
  | _ => none

/-- Python `float(s)` on the decimal numerals the source feeds it
(exponent and special forms are never produced by the lyrics data this
program parses). -/
def pyFloat? (s : String) : Option ℚ :=
  match trimChars s.toList with
  | '-' :: rest => (unsignedDecimal? rest).map (fun q => -q)
  | '+' :: rest => unsignedDecimal? rest
  | cs => unsignedDecimal? cs

/-! ### The LRC timestamp regular expressions

`SYNCED_LINE_RE = \[?(\d{2}):(\d{2}(?:\.\d+)?)\]?` and the tag pattern
`\[\d{2}:\d{2}(?:\.\d+)?\]` from `convert_lrclib_to_target_json`.  Since
both brackets in `SYNCED_LINE_RE` are optional and contribute nothing to
the captured groups, a search for it captures exactly the leftmost
occurrence of the core `\d{2}:\d{2}(?:\.\d+)?`. -/

/-- Match the core pattern `(\d{2}):(\d{2}(?:\.\d+)?)` at the head of
the character list, returning the minutes group and the seconds group
(the fractional part is greedy, and a point not followed by a digit is
left out of the group, as the regex does). -/
def matchCoreTs : List Char → Option (Nat × ℚ)
  | a :: b :: ':' :: c :: d :: rest =>
    if a.isDigit && b.isDigit && c.isDigit && d.isDigit then
      let frac : ℚ :=
        match rest with
        | '.' :: rest2 =>
          let ds := rest2.takeWhile Char.isDigit
          if ds = [] then 0 else fracOfDigits ds
        | _ => 0
      some (charsToNat [a, b], (charsToNat [c, d] : ℚ) + frac)
    else none
  | _ => none

/-- `SYNCED_LINE_RE.search(line)`: the groups of the leftmost match. -/
def searchTimestamp : List Char → Option (Nat × ℚ)
  | [] => none
  | c :: rest =>
    match matchCoreTs (c :: rest) with
    | some r => some r
    | none => searchTimestamp rest

/-- Length of a full bracketed tag `\[\d{2}:\d{2}(?:\.\d+)?\]` starting
here, if any. -/
def matchFullTag : List Char → Option Nat
  | '[' :: a :: b :: ':' :: c :: d :: rest =>
    if a.isDigit && b.isDigit && c.isDigit && d.isDigit then
      match rest with
      | ']' :: _ => some 7
      | '.' :: rest2 =>
        let ds := rest2.takeWhile Char.isDigit
        if ds.length = 0 then none
        else
          match rest2.drop ds.length with
          | ']' :: _ => some (8 + ds.length)
          | _ => none
      | _ => none
    else none
  | _ => none

/-- End position (after the last character) of the last full bracketed
tag in the line, 0 when there is none: the `last_tag_end` computed with
`re.finditer` in the source.  Tags contain no `[` after their first
character, so no two matches can overlap and scanning every position
agrees with `finditer`. -/
def lastTagEndAux : List Char → Nat → Nat → Nat
  | [], _, acc => acc
  | c :: rest, pos, acc =>
    lastTagEndAux rest (pos + 1)
      (match matchFullTag (c :: rest) with
       | some len => pos + len
       | none => acc)

/-- End position of the last full bracketed tag. -/
def lastTagEnd (cs : List Char) : Nat :=
  lastTagEndAux cs 0 0

/-! ### Lyrics records and normalization
(spotify_now_playing_windows.py `convert_lrclib_to_target_json`,
lyrics_fetcher_lrclib.py `fetch_lyrics` / `parse_lrc`)

The canonical record stores each timed line's offset both as a
formatted `mm:ss.ss` string and as a numeric seconds value; per the
data contract the numeric value is authoritative, and only it is
modelled here. -/

/-- One entry of `timed_lyrics`: the authoritative numeric offset and
the line text. -/
structure TimedEntryOut where
  seconds : ℚ
  line : String
deriving DecidableEq

/-- The canonical lyrics record produced by the normalization step and
by the standalone fetcher. -/
structure LyricsRecord where
  artist : String
  title : String
  has_timed : Bool
  timed_lyrics : List TimedEntryOut
  plain_lyrics : String
deriving DecidableEq

/-- A JSON artist value: either a single string or a list of names. -/
inductive ArtistField
  | str (s : String)
  | list (xs : List String)
deriving DecidableEq

/-- One element of a synced-lyrics array: a JSON object, a raw LRC
string, or some other JSON value (skipped by the source). -/
inductive SyncedEntry
  | dict (seconds : Option (Option ℚ)) (time : Option String)
      (line : Option String) (text : Option String) (lyric : Option String)
  | str (s : String)
  | other
deriving DecidableEq

/-- A JSON synced-lyrics value: one string of tagged lines, or an
array of entries. -/
inductive SyncedField
  | str (s : String)
  | arr (es : List SyncedEntry)
deriving DecidableEq

/-- The raw lrclib `get` response as read by
`convert_lrclib_to_target_json`: exactly the keys the function probes.
In `SyncedEntry.dict`, `seconds = some none` models a present
`"seconds"` key whose value `float()` rejects, and `some (some q)` a
value `float()` accepts (the coercion of a JSON number or numeric
string is an external concern). -/
structure GotJson where
  name : Option String
  trackName : Option String
  track_name : Option String
  title : Option String
  artistName : Option ArtistField
  artist : Option ArtistField
  artist_name : Option ArtistField
  plainLyrics : Option String
  plain_lyrics : Option String
  plainLyricsText : Option String
  lyrics : Option String
  syncedLyrics : Option SyncedField
  synced_lyrics : Option SyncedField
  lrc : Option SyncedField
deriving DecidableEq

/-- Python truthiness filter for an optional string: `None` and `""`
are falsy. -/
def truthyStr (o : Option String) : Option String :=
  o.bind fun s => if s = "" then none else some s

/-- Python truthiness filter for an optional artist value. -/
def truthyArtist (o : Option ArtistField) : Option ArtistField :=
  o.bind fun a =>
    match a with
    | .str s => if s = "" then none else some a
    | .list xs => if xs = [] then none else some a

/-- Python truthiness filter for an optional synced-lyrics value. -/
def truthySynced (o : Option SyncedField) : Option SyncedField :=
  o.bind fun v =>
    match v with
    | .str s => if s = "" then none else some v
    | .arr es => if es = [] then none else some v

/-- The title `or`-chain
`name or trackName or track_name or title or name`, then
`if title is None: title = ""`. -/
def titleOf (g : GotJson) : String :=
  (truthyStr g.name <|> truthyStr g.trackName <|> truthyStr g.track_name <|>
    truthyStr g.title <|> truthyStr g.name).getD ""

/-- The artist `or`-chain
`artistName or artist or artist_name or artistName`, the list case
joined with `", "`, `None` replaced by `""`. -/
def artistOf (g : GotJson) : String :=
  match truthyArtist g.artistName <|> truthyArtist g.artist <|>
      truthyArtist g.artist_name <|> truthyArtist g.artistName with
  | some (.str s) => s
  | some (.list xs) => pyJoin ", " xs
  | none => ""

/-- The plain-lyrics `or`-chain
`plainLyrics or plain_lyrics or plainLyricsText or lyrics or ""`. -/
def plainOf (g : GotJson) : String :=
  (truthyStr g.plainLyrics <|> truthyStr g.plain_lyrics <|>
    truthyStr g.plainLyricsText <|> truthyStr g.lyrics).getD ""

/-- The synced-lyrics `or`-chain
`syncedLyrics or synced_lyrics or lrc or None`. -/
def syncedRawOf (g : GotJson) : Option SyncedField :=
  truthySynced g.syncedLyrics <|> truthySynced g.synced_lyrics <|>
    truthySynced g.lrc

/-- One line of a tagged synced-lyrics string: `SYNCED_LINE_RE` gives
`mm` and `ss`, `seconds = mm*60 + ss`, and the text is the stripped
remainder after the last full tag. -/
def parseSyncedLine? (ln : String) : Option TimedEntryOut :=
  match searchTimestamp ln.toList with
  | none => none
  | some (mm, ss) =>
    some ⟨(mm : ℚ) * 60 + ss,
      String.mk (trimChars (ln.toList.drop (lastTagEnd ln.toList)))⟩

/-- The string branch of the conversion: every `splitlines()` line
with a timestamp contributes one timed entry. -/
def parseSyncedString (s : String) : List TimedEntryOut :=
  (pySplitLines s).filterMap parseSyncedLine?

/-- Round half to even, Python's `round`. -/
def roundHalfEven (q : ℚ) : Int :=
  if q - ⌊q⌋ < 1 / 2 then ⌊q⌋
  else if 1 / 2 < q - ⌊q⌋ then ⌊q⌋ + 1
  else if ⌊q⌋ % 2 = 0 then ⌊q⌋ else ⌊q⌋ + 1

/-- Python `round(t, 3)`. -/
def pyRound3 (t : ℚ) : ℚ :=
  (roundHalfEven (t * 1000) : ℚ) / 1000

/-- `int(parts[0]) * 60 + float(parts[1])` of `time.split(":")`: the
array-entry time parser of the conversion, which ignores parts beyond
the second. -/
def parse_time_first2 (s : String) : Option ℚ :=
  match pySplit s ':' with
  | p0 :: p1 :: _ =>
    match pyInt? p0, pyFloat? p1 with
    | some m, some f => some ((m : ℚ) * 60 + f)
    | _, _ => none
  | _ => none

/-- The array branch of the conversion: dict entries prefer the
`"seconds"` key (a present but unparsable value skips the entry
without consulting `"time"`), the text is the
`line or text or lyric or ""` chain, the value is `round(t, 3)`;
string entries reuse the tagged-line parse; anything else is skipped. -/
def parseSyncedArr (es : List SyncedEntry) : List TimedEntryOut :=
  es.filterMap fun e =>
    match e with
    | .dict seconds time line text lyric =>
      let t? : Option ℚ :=
        match seconds with
        | some v => v
        | none =>
          match time with
          | some s => parse_time_first2 s
          | none => none
      match t? with
      | none => none
      | some tv =>
        some ⟨pyRound3 tv, (truthyStr line <|> truthyStr text <|> truthyStr lyric).getD ""⟩
    | .str s => parseSyncedLine? s
    | .other => none

/-- The timed entries parsed from the synced-lyrics value: string with
non-whitespace content, array, or nothing. -/
def timedOf (g : GotJson) : List TimedEntryOut :=
  match syncedRawOf g with
  | some (.str s) => if pyStrip s ≠ "" then parseSyncedString s else []
  | some (.arr es) => parseSyncedArr es
  | none => []

/-- The fallback `if not timed and plain:` of the conversion: a single
synthetic entry at 0 carrying the first line of the plain lyrics. -/
def timedWithFallback (g : GotJson) : List TimedEntryOut :=
  if timedOf g = [] ∧ plainOf g ≠ "" then
    [⟨0, (pySplitLines (plainOf g)).headD ""⟩]
  else timedOf g

/-- `convert_lrclib_to_target_json(got_json)`: the canonical record,
with `has_timed = bool(timed)`. -/
def convert_lrclib_to_target_json (g : GotJson) : LyricsRecord :=
  ⟨artistOf g, titleOf g, !(timedWithFallback g).isEmpty, timedWithFallback g, plainOf g⟩

/-- The two fields of the lrclib `get` response read by the standalone
fetcher. -/
structure LrclibGetResponse where
  syncedLyrics : Option String
  plainLyrics : Option String
deriving DecidableEq

/-- `parse_lrc(lrc_text)` from lyrics_fetcher_lrclib.py: split on
newlines, strip, keep lines that start with `[` and contain `]`, read
the timestamp before the first `]` (bracket removed, stripped), the
lyric after it (stripped), and convert `mm:ss` with exactly one colon
split into seconds; unparsable lines are skipped. -/
def parse_lrc (lrc_text : String) : List TimedEntryOut :=
  (pySplit lrc_text '\n').filterMap fun raw0 =>
    let raw := pyStrip raw0
    if raw.toList.headD ' ' = '[' && raw.toList.contains ']' then
      let parts := splitChar ']' raw.toList
      let timestamp := trimChars ((parts.headD []).filter (fun c => c ≠ '['))
      let lyric := String.mk (trimChars (joinWithChar ']' parts.tail))
      match splitChar ':' timestamp with
      | [minPart, secPart] =>
        match digitsToNat? minPart, pyFloat? (String.mk secPart) with
        | some m, some sec => some ⟨(m : ℚ) * 60 + sec, lyric⟩
        | _, _ => none
      | _ => none
    else none

/-- `fetch_lyrics` from lyrics_fetcher_lrclib.py, after the HTTP and
status handling: builds the record with `has_timed = False` and no
timed lyrics, then fills them in only when `syncedLyrics` is truthy. -/
def fetch_lyrics (artist title : String) (resp : LrclibGetResponse) : LyricsRecord :=
  match truthyStr resp.syncedLyrics with
  | some s => ⟨artist, title, true, parse_lrc s, resp.plainLyrics.getD ""⟩
  | none => ⟨artist, title, false, [], resp.plainLyrics.getD ""⟩

/-! ### Cached-lyrics loading and the track-change handler
(spotify_now_playing_windows.py `load_lyrics_from_file` and the track
change block of `main_loop`) -/

/-- One element of the cached file's `timed_lyrics` array as read by
`load_lyrics_from_file`: a dict with optional `"seconds"` (outer
`none` = key absent, inner `none` = `float()` rejected the value),
optional `"time"` string, and the `"line"` text defaulting to `""`;
or some other JSON value, which is skipped. -/
inductive CachedEntry
  | dict (seconds : Option (Option ℚ)) (time : Option String) (line : Option String)
  | other
deriving DecidableEq

/-- `mm, rest = entry["time"].split(":")`: the loader's time parser
requires exactly one colon (the tuple unpacking raises otherwise). -/
def parse_time_exact2 (s : String) : Option ℚ :=
  match pySplit s ':' with
  | [p0, p1] =>
    match pyInt? p0, pyFloat? p1 with
    | some m, some f => some ((m : ℚ) * 60 + f)
    | _, _ => none
  | _ => none

/-- Stable insertion of a keyed pair, keeping earlier equal keys first:
the building block of Python's stable `sorted(..., key=lambda x: x[0])`. -/
def insertByKey (x : ℚ × String) : List (ℚ × String) → List (ℚ × String)
  | [] => [x]
  | y :: ys => if y.1 < x.1 then y :: insertByKey x ys else x :: y :: ys

/-- Python's stable `sorted(zip(times, lines), key=lambda x: x[0])`. -/
def pySortByKey : List (ℚ × String) → List (ℚ × String)
  | [] => []
  | x :: xs => insertByKey x (pySortByKey xs)

/-- `load_lyrics_from_file(filepath)`: `none` models the
`(None, None)` failure result.  The file-system read and the JSON parse
are external; a missing file or a file that fails to parse is the
`data = none` case.  Entries whose `"seconds"` value is rejected are
skipped (the `elif` never consults `"time"` then); if nothing parses
the loader fails; otherwise the pairs are stably sorted by offset. -/
def load_lyrics_from_file (fileExists : Bool) (data : Option (List CachedEntry)) :
    Option (List ℚ × List String) :=
  if fileExists then
    match data with
    | none => none
    | some entries =>
      let pairs := entries.filterMap fun e =>
        match e with
        | .dict seconds time line =>
          match seconds with
          | some v => v.map (fun s => (s, line.getD ""))
          | none =>
            match time with
            | some ts => (parse_time_exact2 ts).map (fun s => (s, line.getD ""))
            | none => none
        | .other => none
      if pairs = [] then none
      else
        let sortedPairs := pySortByKey pairs
        some (sortedPairs.map (·.1), sortedPairs.map (·.2))
  else none

/-- What the track-change block of `main_loop` does about lyrics. -/
inductive LyricSetupOutcome
  | loaded (times : List ℚ) (lines : List String)
  | invalidLocal
  | launchWorker
deriving DecidableEq

/-- The track-change block: if the cached file exists, load it —
`if times and lines:` builds the index, else the status becomes
`invalid_local` (and nothing else happens); only when no file exists
is the lyric worker launched. -/
def on_track_change (fileExists : Bool) (parsed : Option (List ℚ × List String)) :
    LyricSetupOutcome :=
  if fileExists then
    match parsed with
    | some (ts, ls) => if ts ≠ [] ∧ ls ≠ [] then .loaded ts ls else .invalidLocal
    | none => .invalidLocal
  else .launchWorker

/-! ### Poll handling and the credential steps of `main_loop`
(spotify_now_playing_windows.py `get_playback` and the top of the
`while True:` body) -/

/-- A playback snapshot as read out of the 200-response JSON. -/
structure Snapshot where
  name : String
  artistNames : List String
  album : String
  progress_ms : ℚ
  duration_ms : ℚ
  is_playing : Bool
  id : Option String
deriving DecidableEq

/-- The value `get_playback` hands the main loop: a network failure
after retries, a 204, a 401, an unexpected status, or the parsed 200
body (whose `item` may be missing for ads/local tracks). -/
inductive PollResult
  | network
  | noContent
  | expired
  | statusOther (code : Nat)
  | playing (item : Option Snapshot)
deriving DecidableEq

/-- Whether this tick of `main_loop` performs a token refresh: only
the `data.get("error") == "expired"` branch does. -/
def pollUsesRefresh : PollResult → Bool
  | .expired => true
  | _ => false

/-- The persisted session record (`spotify_session.json`): the two
tokens as `load_session` reads them back. -/
structure Session where
  access_token : Option String
  refresh_token : Option String
deriving DecidableEq

/-- The body of a token-refresh response, as the source probes it. -/
structure RefreshResponse where
  access_token : Option String
  refresh_token : Option String
deriving DecidableEq

/-- Outcome of the expired-token branch of `main_loop`: either the
loop returns (restarting authorization) with the session file removed,
or it continues with renewed tokens and the session file rewritten by
`save_session`. -/
inductive RefreshHandling
  | restart (sessionFile : Option Session)
  | renewed (access refresh : String) (sessionFile : Option Session)
deriving DecidableEq

/-- The expired-token branch: `refresh_token_request` failing (`none`
models the caught exception) or answering without an `access_token`
removes the session file and returns; otherwise the new access token is
adopted, the refresh token only if the response carries one, and the
pair is saved. -/
def handle_expired (cur_refresh : String) (resp : Option RefreshResponse) :
    RefreshHandling :=
  match resp with
  | none => .restart none
  | some r =>
    match r.access_token with
    | none => .restart none
    | some a => .renewed a (r.refresh_token.getD cur_refresh)
        (some ⟨some a, some (r.refresh_token.getD cur_refresh)⟩)

/-- The in-memory credential pair the loop polls with. -/
structure Credential where
  access_token : String
  refresh_token : String
deriving DecidableEq

/-- The credential available to the next poll after one tick. -/
inductive TickCredResult
  | continueWith (c : Credential)
  | restartAuth
deriving DecidableEq

/-- How one tick of `main_loop` leaves the credential: only an
`expired` poll result touches it; every other result reaches the next
poll with the same credential, and no code path consults any expiry
time. -/
def credential_after_tick (cred : Credential) (r : PollResult)
    (resp : Option RefreshResponse) : TickCredResult :=
  match r with
  | .expired =>
    match handle_expired cred.refresh_token resp with
    | .restart _ => .restartAuth
    | .renewed a rt _ => .continueWith ⟨a, rt⟩
  | _ => .continueWith cred

/-- What `authorize_if_needed` does on entry. -/
inductive AuthPath
  | useSaved (access refresh : String)
  | handshake
deriving DecidableEq

/-- `authorize_if_needed`: a saved session with truthy tokens is used
as is; otherwise the browser handshake runs. -/
def authorize_path (file : Option Session) : AuthPath :=
  match file with
  | none => .handshake
  | some s =>
    match s.access_token, s.refresh_token with
    | some a, some r => if a ≠ "" ∧ r ≠ "" then .useSaved a r else .handshake
    | _, _ => .handshake

/-- Modelled from the spec: the spec's Credential carries an
`expires_at` timestamp and a 60-second proactive safety margin, neither
of which exists anywhere in the source (the session file stores only
the two tokens and `saved_at`, which is never read). -/
structure SpecCredential where
  access_token : String
  refresh_token : String
  expires_at : ℚ
deriving DecidableEq

/-- Modelled from the spec: the fixed proactive-refresh safety margin,
e.g. 60 seconds. -/
def SAFETY_MARGIN_S : ℚ := 60

/-- Modelled from the spec: the credential's expiry lies within the
safety margin of the current time. -/
def withinSafetyMargin (c : SpecCredential) (now : ℚ) : Prop :=
  c.expires_at ≤ now + SAFETY_MARGIN_S

/-! ### PKCE pair generation (module level of both scripts)

`secrets.token_urlsafe(64)` draws from the OS entropy source; the
supply is modelled as a counter that yields a distinct token on every
draw.  The SHA-256/base64url challenge derivation is an external
primitive, modelled as an injective tagging of the verifier. -/

/-- The entropy supply backing `secrets.token_urlsafe`. -/
structure Rng where
  seed : Nat
deriving DecidableEq

/-- One draw of `secrets.token_urlsafe(64)`. -/
def token_urlsafe (r : Rng) : String × Rng :=
  ("tok" ++ toString r.seed, ⟨r.seed + 1⟩)

/-- `base64url(sha256(verifier))` without padding, as an opaque-to-the-
program derivation of the challenge from the verifier. -/
def pkce_challenge_of (v : String) : String :=
  "S256." ++ v

/-- `generate_pkce_pair()`: a fresh verifier and its challenge. -/
def generate_pkce_pair (r : Rng) : (String × String) × Rng :=
  let vr := token_urlsafe r
  ((vr.1, pkce_challenge_of vr.1), vr.2)

/-- The module-level globals of the script. -/
structure ProcessGlobals where
  code_verifier : String
  code_challenge : String
  rng : Rng
deriving DecidableEq

/-- Module import:
`CODE_VERIFIER, CODE_CHALLENGE = generate_pkce_pair()`, run once per
process. -/
def module_init (r : Rng) : ProcessGlobals :=
  ⟨(generate_pkce_pair r).1.1, (generate_pkce_pair r).1.2, (generate_pkce_pair r).2⟩

/-- One authorization attempt (`authorize_if_needed` falling through
to the handshake): the auth URL embeds the global challenge and
`swap_code_for_token` sends the global verifier; `generate_pkce_pair`
is never called again, so the globals are returned unchanged. -/
def authorize_attempt (g : ProcessGlobals) : String × ProcessGlobals :=
  (g.code_verifier, g)

/-- The verifiers used by `n` successive authorization attempts within
one process. -/
def attempt_verifiers (g : ProcessGlobals) : Nat → List String
  | 0 => []
  | n + 1 =>
    (authorize_attempt g).1 :: attempt_verifiers (authorize_attempt g).2 n

/-- A concrete lrclib `get` response carrying only plain lyrics: no
title, artist or synced field at all, and two plain-text lines. -/
def gPlainOnly : GotJson :=
  ⟨none, none, none, none, none, none, none, some "Hello\nWorld",
   none, none, none, none, none, none⟩

/-- The number of offsets a cutoff `c` admits.  For a sorted list this
is exactly the length of the admitted prefix, and the index
`lyric_for_time` resolves to is this count minus one (clamped at 0). -/
def countLE (c : ℚ) : List ℚ → Nat
  | [] => 0
  | x :: xs => if x ≤ c then 1 + countLE c xs else countLE c xs

/-! ## Helper lemmas

For a list sorted non-decreasingly, the entries that a cutoff `c`
admits form exactly the prefix of length `countLE c`; the forward scan
and the backtrack loop of `lyric_for_time` then both have closed forms
in terms of that count, from which the resolved index is the count
minus one (clamped at 0) — independently of the stored position. -/

theorem countLE_le_length (c : ℚ) : ∀ ts : List ℚ, countLE c ts ≤ ts.length := by
  intro ts
  induction ts with
  | nil => simp [countLE]
  | cons x xs ih =>
    simp only [countLE, List.length_cons]
    split <;> omega

theorem countLE_eq_zero (c : ℚ) :
    ∀ ts : List ℚ, (∀ a ∈ ts, ¬ a ≤ c) → countLE c ts = 0 := by
  intro ts
  induction ts with
  | nil =>
    intro _
    rfl
  | cons x xs ih =>
    intro h
    simp only [countLE]
    rw [if_neg (h x (by simp))]
    exact ih (fun a ha => h a (by simp [ha]))

theorem countLE_mono (c d : ℚ) (hcd : c ≤ d) :
    ∀ ts : List ℚ, countLE c ts ≤ countLE d ts := by
  intro ts
  induction ts with
  | nil => simp [countLE]
  | cons x xs ih =>
    simp only [countLE]
    by_cases hx : x ≤ c
    · rw [if_pos hx, if_pos (le_trans hx hcd)]
      omega
    · rw [if_neg hx]
      split <;> omega

theorem sorted_getD_le_iff (c : ℚ) :
    ∀ ts : List ℚ, ts.Pairwise (· ≤ ·) → ∀ i, i < ts.length →
      (ts.getD i 0 ≤ c ↔ i < countLE c ts) := by
  intro ts
  induction ts with
  | nil =>
    intro _ i hi
    simp at hi
  | cons x xs ih =>
    intro hp i hi
    rw [List.pairwise_cons] at hp
    obtain ⟨hx, hxs⟩ := hp
    simp only [countLE]
    cases i with
    | zero =>
      simp only [List.getD_cons_zero]
      by_cases hxc : x ≤ c
      · rw [if_pos hxc]
        exact iff_of_true hxc (by omega)
      · rw [if_neg hxc]
        have h0 : countLE c xs = 0 :=
          countLE_eq_zero c xs (fun a ha hac => hxc (le_trans (hx a ha) hac))
        exact iff_of_false hxc (by omega)
    | succ j =>
      have hj : j < xs.length := by
        simp only [List.length_cons] at hi
        omega
      rw [List.getD_cons_succ, ih hxs j hj]
      by_cases hxc : x ≤ c
      · rw [if_pos hxc]
        omega
      · rw [if_neg hxc]
        have h0 : countLE c xs = 0 :=
          countLE_eq_zero c xs (fun a ha hac => hxc (le_trans (hx a ha) hac))
        omega

theorem clampIdx_zero (p : Int) : clampIdx p 0 = 0 := by
  simp only [clampIdx]
  rcases lt_or_ge p 0 with hp | hp
  · rw [if_pos hp]
    rfl
  · rw [if_neg (not_lt.mpr hp)]
    rw [if_pos (by exact_mod_cast hp)]

theorem clampIdx_lt (p : Int) (n : Nat) (hn : 0 < n) : clampIdx p n < n := by
  simp only [clampIdx]
  rcases lt_or_ge p 0 with hp | hp
  · simp only [if_pos hp]
    split <;> omega
  · simp only [if_neg (not_lt.mpr hp)]
    split <;> omega

theorem advanceFuel_closed (ts : List ℚ) (c : ℚ) (hp : ts.Pairwise (· ≤ ·)) :
    ∀ fuel idx, idx < ts.length → ts.length - idx ≤ fuel →
      advanceFuel ts c fuel idx = max idx (min ts.length (countLE c ts) - 1) := by
  intro fuel
  induction fuel with
  | zero =>
    intro idx h1 h2
    omega
  | succ f ih =>
    intro idx h1 h2
    have hKlen : countLE c ts ≤ ts.length := countLE_le_length c ts
    simp only [advanceFuel]
    split
    · rename_i h
      obtain ⟨hlt, hle⟩ := h
      have hidxK : idx + 1 < countLE c ts :=
        (sorted_getD_le_iff c ts hp (idx + 1) hlt).mp hle
      rw [ih (idx + 1) hlt (by omega)]
      omega
    · rename_i h
      by_cases h2' : idx + 1 < ts.length
      · have hnle : ¬ ts.getD (idx + 1) 0 ≤ c := fun hc => h ⟨h2', hc⟩
        have hnk : ¬ (idx + 1 < countLE c ts) := fun hk =>
          hnle ((sorted_getD_le_iff c ts hp (idx + 1) h2').mpr hk)
        omega
      · omega

theorem backtrack_closed (ts : List ℚ) (c : ℚ) (hp : ts.Pairwise (· ≤ ·)) :
    ∀ i, i < ts.length → backtrack ts c i = min i (countLE c ts - 1) := by
  intro i
  induction i with
  | zero =>
    intro _
    simp [backtrack]
  | succ j ih =>
    intro hji
    have hj : j < ts.length := by omega
    simp only [backtrack]
    split
    · rename_i h
      have hnk : ¬ (j + 1 < countLE c ts) := fun hk =>
        absurd ((sorted_getD_le_iff c ts hp (j + 1) hji).mpr hk) (not_le.mpr h)
      have := ih hj
      omega
    · rename_i h
      have hk : j + 1 < countLE c ts :=
        (sorted_getD_le_iff c ts hp (j + 1) hji).mp (not_lt.mp h)
      omega

theorem resolveIdx_closed (times : List ℚ) (p : Int) (t : ℚ)
    (hp : times.Pairwise (· ≤ ·)) :
    resolveIdx times p t = countLE (t + epsOvershoot) times - 1 := by
  by_cases hn : times.length = 0
  · have h0 : times = [] := List.length_eq_zero.mp hn
    subst h0
    simp [resolveIdx, advance, List.length_nil, clampIdx_zero, advanceFuel, backtrack, countLE]
  · have hn' : 0 < times.length := Nat.pos_of_ne_zero hn
    have hcl : clampIdx p times.length < times.length := clampIdx_lt p times.length hn'
    have hKlen : countLE (t + epsOvershoot) times ≤ times.length :=
      countLE_le_length _ times
    unfold resolveIdx advance
    rw [advanceFuel_closed times (t + epsOvershoot) hp _ _ hcl (le_refl _)]
    rw [backtrack_closed times (t + epsOvershoot) hp _ (by omega)]
    omega

theorem advanceFuel_lt (ts : List ℚ) (c : ℚ) :
    ∀ fuel idx, idx < ts.length → advanceFuel ts c fuel idx < ts.length := by
  intro fuel
  induction fuel with
  | zero =>
    intro idx h
    simpa [advanceFuel] using h
  | succ f ih =>
    intro idx h
    simp only [advanceFuel]
    split
    · rename_i hcond
      exact ih _ hcond.1
    · exact h

theorem backtrack_le (ts : List ℚ) (c : ℚ) : ∀ i, backtrack ts c i ≤ i := by
  intro i
  induction i with
  | zero => simp [backtrack]
  | succ j ih =>
    simp only [backtrack]
    split
    · omega
    · omega

theorem resolveIdx_lt (times : List ℚ) (p : Int) (t : ℚ) (hne : times ≠ []) :
    resolveIdx times p t < times.length := by
  have hn' : 0 < times.length := List.length_pos.mpr hne
  unfold resolveIdx advance
  exact lt_of_le_of_lt (backtrack_le times (t + epsOvershoot) _)
    (advanceFuel_lt times (t + epsOvershoot) _ _ (clampIdx_lt p times.length hn'))

theorem resolveSeq_eq_map (times : List ℚ) (lines : List String)
    (hp : times.Pairwise (· ≤ ·)) :
    ∀ (ts : List ℚ) (p : Int),
      resolveSeq ⟨times, lines, p⟩ ts
        = ts.map (fun t => countLE (t + epsOvershoot) times - 1) := by
  intro ts
  induction ts with
  | nil =>
    intro p
    rfl
  | cons t ts ih =>
    intro p
    simp only [resolveSeq, List.map_cons]
    exact congrArg₂ List.cons (resolveIdx_closed times p t hp)
      (ih ((resolveIdx times p t : Nat) : Int))

theorem resolveSeq_state_invariant (times : List ℚ) (lines : List String) (p : Int)
    (t : ℚ) :
    (lyric_for_time ⟨times, lines, p⟩ t).state
      = ⟨times, lines, ((resolveIdx times p t : Nat) : Int)⟩ := rfl

/-! ## Claim theorems -/

/-- Claim C1, counterexample.  For the cursor loaded with offsets
[0, 5, 12, 12, 30], the claim predicts index 2 (first line at offset
12, tie broken to the first occurrence) at t = 12, and index 0 (line at
offset 0) at t = 4.96 ∈ [0, 5).  The code resolves t = 12 to index 3
(the last of the tied lines) and t = 4.96 to index 1, because both
loops compare offsets against t + 0.05. -/
theorem resolve_tie_counterexample :
    (lyric_for_time (build_lyric_index [0, 5, 12, 12, 30]
        ["l0", "l1", "l2a", "l2b", "l3"]) 12).idx = 3 ∧
    ¬ (lyric_for_time (build_lyric_index [0, 5, 12, 12, 30]
        ["l0", "l1", "l2a", "l2b", "l3"]) 12).idx = 2 ∧
    (lyric_for_time (build_lyric_index [0, 5, 12, 12, 30]
        ["l0", "l1", "l2a", "l2b", "l3"]) (124 / 25)).idx = 1 ∧
    ¬ (lyric_for_time (build_lyric_index [0, 5, 12, 12, 30]
        ["l0", "l1", "l2a", "l2b", "l3"]) (124 / 25)).idx = 0 := by
  norm_num [lyric_for_time, build_lyric_index, resolveIdx, advance, advanceFuel,
    backtrack, clampIdx, epsOvershoot]

/-- Claim C1, amended.  For every cursor state over non-decreasingly
sorted offsets (any stored position) and every timestamp t,
`lyric_for_time` returns the index of the last line whose offset is
≤ t + 0.05 — so ties at equal offsets resolve to the LAST occurrence —
or index 0 (the first line) when every offset exceeds t + 0.05, and the
text is the line at that index. -/
theorem resolve_last_le_eps (times : List ℚ) (lines : List String) (p : Int) (t : ℚ)
    (hp : times.Pairwise (· ≤ ·)) (hne : times ≠ [])
    (hlen : times.length = lines.length) :
    (lyric_for_time ⟨times, lines, p⟩ t).idx < times.length ∧
    (times.getD (lyric_for_time ⟨times, lines, p⟩ t).idx 0 ≤ t + epsOvershoot ∨
      (lyric_for_time ⟨times, lines, p⟩ t).idx = 0) ∧
    (∀ j, j < times.length → times.getD j 0 ≤ t + epsOvershoot →
      j ≤ (lyric_for_time ⟨times, lines, p⟩ t).idx) ∧
    (lyric_for_time ⟨times, lines, p⟩ t).text
      = lines.get? (lyric_for_time ⟨times, lines, p⟩ t).idx := by
  have hn' : 0 < times.length := List.length_pos.mpr hne
  have hKlen : countLE (t + epsOvershoot) times ≤ times.length :=
    countLE_le_length _ times
  have hidx : (lyric_for_time ⟨times, lines, p⟩ t).idx
      = countLE (t + epsOvershoot) times - 1 := resolveIdx_closed times p t hp
  have hlne : lines.isEmpty = false := by
    cases lines with
    | nil =>
      rw [List.length_nil] at hlen
      omega
    | cons a as => rfl
  refine ⟨by omega, ?_, ?_, ?_⟩
  · by_cases hK0 : countLE (t + epsOvershoot) times = 0
    · right
      omega
    · left
      rw [hidx]
      exact (sorted_getD_le_iff _ times hp _ (by omega)).mpr (by omega)
  · intro j hj hle
    have hjK : j < countLE (t + epsOvershoot) times :=
      (sorted_getD_le_iff _ times hp j hj).mp hle
    omega
  · simp [lyric_for_time, hlne]

/-- Claim C1, witness for the amended theorem at the cursor loaded with
offsets [0, 5, 12, 12, 30] and t = 12. -/
theorem resolve_last_le_eps_witness :
    (lyric_for_time ⟨[0, 5, 12, 12, 30], ["l0", "l1", "l2a", "l2b", "l3"], 0⟩ 12).idx
        < ([0, 5, 12, 12, 30] : List ℚ).length ∧
    (([0, 5, 12, 12, 30] : List ℚ).getD
        (lyric_for_time ⟨[0, 5, 12, 12, 30], ["l0", "l1", "l2a", "l2b", "l3"], 0⟩ 12).idx 0
          ≤ 12 + epsOvershoot ∨
      (lyric_for_time ⟨[0, 5, 12, 12, 30], ["l0", "l1", "l2a", "l2b", "l3"], 0⟩ 12).idx = 0) ∧
    (∀ j, j < ([0, 5, 12, 12, 30] : List ℚ).length →
      ([0, 5, 12, 12, 30] : List ℚ).getD j 0 ≤ 12 + epsOvershoot →
      j ≤ (lyric_for_time ⟨[0, 5, 12, 12, 30], ["l0", "l1", "l2a", "l2b", "l3"], 0⟩ 12).idx) ∧
    (lyric_for_time ⟨[0, 5, 12, 12, 30], ["l0", "l1", "l2a", "l2b", "l3"], 0⟩ 12).text
      = ["l0", "l1", "l2a", "l2b", "l3"].get?
          (lyric_for_time ⟨[0, 5, 12, 12, 30], ["l0", "l1", "l2a", "l2b", "l3"], 0⟩ 12).idx :=
  resolve_last_le_eps [0, 5, 12, 12, 30] ["l0", "l1", "l2a", "l2b", "l3"] 0 12
    (by norm_num [List.pairwise_cons]) (by simp) (by rfl)

/-- Claim C2: with a prior snapshot, `detect_seek` computes the signed
deviation of the observed progress from the linear projection of the
previous progress (clock readings converted from seconds to
milliseconds), reports a seek exactly when its absolute value exceeds
`SEEK_THRESHOLD_MS = 1500`, and returns that exact deviation. -/
theorem detect_seek_spec (p prev_time current_progress now : ℚ) :
    (detect_seek (some p) prev_time current_progress now).2
        = current_progress - (p + (1000 * now - 1000 * prev_time)) ∧
    ((detect_seek (some p) prev_time current_progress now).1 = true ↔
      SEEK_THRESHOLD_MS
        < |current_progress - (p + (1000 * now - 1000 * prev_time))|) := by
  have harith : current_progress - (p + (now - prev_time) * 1000)
      = current_progress - (p + (1000 * now - 1000 * prev_time)) := by ring
  constructor
  · simpa only [detect_seek] using harith
  · simp only [detect_seek, decide_eq_true_eq]
    rw [harith]

/-- Claim C3: resetting the cursor for a seek and resolving at t gives
exactly the same result (text, index and resulting state) as resolving
on a freshly loaded cursor over the same lines: both start at
position 0. -/
theorem reset_then_resolve_eq_cold (st : LyricIndex) (t : ℚ) :
    lyric_for_time (reset_for_seek st t) t
      = lyric_for_time (build_lyric_index st.times st.lines) t := rfl

/-- Claim C4: over sorted offsets, resolving a strictly increasing
sequence of timestamps with no intervening reset yields non-decreasing
cursor positions. -/
theorem resolve_positions_monotone (times : List ℚ) (lines : List String) (p : Int)
    (ts : List ℚ) (hp : times.Pairwise (· ≤ ·)) (hts : List.Chain' (· < ·) ts) :
    List.Chain' (· ≤ ·) (resolveSeq ⟨times, lines, p⟩ ts) := by
  rw [resolveSeq_eq_map times lines hp ts p]
  rw [List.chain'_map]
  refine hts.imp ?_
  intro a b hab
  have hmono : countLE (a + epsOvershoot) times ≤ countLE (b + epsOvershoot) times :=
    countLE_mono _ _ (by linarith) times
  omega

/-- Claim C4, witness: the cursor over offsets [0, 5, 12, 12, 30]
resolved at the strictly increasing timestamps [1, 6, 13] visits
non-decreasing positions. -/
theorem resolve_positions_monotone_witness :
    List.Chain' (· ≤ ·)
      (resolveSeq ⟨[0, 5, 12, 12, 30], ["l0", "l1", "l2a", "l2b", "l3"], 0⟩ [1, 6, 13]) :=
  resolve_positions_monotone [0, 5, 12, 12, 30] ["l0", "l1", "l2a", "l2b", "l3"] 0
    [1, 6, 13] (by norm_num [List.pairwise_cons])
    (by norm_num [List.chain'_cons, List.chain'_singleton])

/-- Claim C5, counterexample.  A credential whose (spec-side) expiry
lies within the 60-second safety margin of the current time, together
with a successful poll: the tick performs no refresh and hands the very
same credential to the next poll — the source refreshes only reactively
and stores no expiry at all. -/
theorem proactive_refresh_counterexample :
    withinSafetyMargin ⟨"tok", "ref", 100⟩ 90 ∧
    pollUsesRefresh (PollResult.playing
        (some ⟨"Song", ["Artist"], "Album", 95000, 200000, true, some "id1"⟩)) = false ∧
    credential_after_tick ⟨"tok", "ref"⟩
        (PollResult.playing
          (some ⟨"Song", ["Artist"], "Album", 95000, 200000, true, some "id1"⟩)) none
      = TickCredResult.continueWith ⟨"tok", "ref"⟩ := by
  refine ⟨?_, rfl, rfl⟩
  norm_num [withinSafetyMargin, SAFETY_MARGIN_S]

/-- Claim C5, amended: the loop refreshes the credential exactly when a
poll reports the token expired (a 401), and every other poll outcome
reaches the next poll with the credential unchanged; no proactive
margin-based refresh exists. -/
theorem refresh_reactive_only :
    (∀ r : PollResult, pollUsesRefresh r = true ↔ r = PollResult.expired) ∧
    (∀ (cred : Credential) (resp : Option RefreshResponse) (r : PollResult),
      pollUsesRefresh r = false →
        credential_after_tick cred r resp = TickCredResult.continueWith cred) := by
  constructor
  · intro r
    cases r <;> simp [pollUsesRefresh]
  · intro cred resp r h
    cases r <;> first
      | rfl
      | simp [pollUsesRefresh] at h

/-- Claim C5, witness for the amended theorem: an expired poll refreshes;
a 204 poll leaves the credential untouched. -/
theorem refresh_reactive_only_witness :
    pollUsesRefresh PollResult.expired = true ∧
    credential_after_tick ⟨"a", "b"⟩ PollResult.noContent none
      = TickCredResult.continueWith ⟨"a", "b"⟩ :=
  ⟨(refresh_reactive_only.1 PollResult.expired).mpr rfl,
   refresh_reactive_only.2 ⟨"a", "b"⟩ none PollResult.noContent rfl⟩

/-- Claim C6: whenever the refresh exchange fails or answers without an
access token, the expired-token branch removes the persisted session
and returns out of the loop, and the restarted `authorize_if_needed`
(finding no session) re-runs the handshake. -/
theorem refresh_missing_token_invalidates (cur_refresh : String)
    (resp : Option RefreshResponse)
    (h : ∀ r, resp = some r → r.access_token = none) :
    handle_expired cur_refresh resp = RefreshHandling.restart none ∧
    authorize_path none = AuthPath.handshake := by
  refine ⟨?_, rfl⟩
  cases resp with
  | none => rfl
  | some r =>
    have ha := h r rfl
    simp [handle_expired, ha]

/-- Claim C6, witness: a refresh response carrying only a new refresh
token but no access token removes the session and restarts the
handshake. -/
theorem refresh_missing_token_invalidates_witness :
    handle_expired "ref" (some ⟨none, some "newref"⟩) = RefreshHandling.restart none ∧
    authorize_path none = AuthPath.handshake :=
  refresh_missing_token_invalidates "ref" (some ⟨none, some "newref"⟩)
    (by
      intro r hr
      cases hr
      rfl)

/-- Claim C7, counterexample.  A cached file that exists but yields no
valid timed line: `load_lyrics_from_file` fails, and the track-change
block reports `invalid_local` — it does NOT fall through to the
external fetch (the worker is launched only when no file exists). -/
theorem malformed_cache_counterexample :
    load_lyrics_from_file true (some [CachedEntry.dict (some none) none (some "x")]) = none ∧
    on_track_change true
        (load_lyrics_from_file true (some [CachedEntry.dict (some none) none (some "x")]))
      = LyricSetupOutcome.invalidLocal ∧
    on_track_change true
        (load_lyrics_from_file true (some [CachedEntry.dict (some none) none (some "x")]))
      ≠ LyricSetupOutcome.launchWorker := by
  decide

/-- Claim C7, amended: a malformed cached lyrics file is NOT treated as
a cache miss — the handler stops with the invalid-local status, and the
external fetch worker is launched only when no cached file exists. -/
theorem malformed_cache_stops_workflow :
    on_track_change true none = LyricSetupOutcome.invalidLocal ∧
    (∀ parsed, on_track_change false parsed = LyricSetupOutcome.launchWorker) ∧
    LyricSetupOutcome.invalidLocal ≠ LyricSetupOutcome.launchWorker :=
  ⟨rfl, fun _ => rfl, by decide⟩

/-- Claim C8, counterexample.  Two successive authorization attempts in
the same process both send the verifier generated once at module load
("tok0" under the seed-0 entropy supply), even though the supply would
have yielded a different verifier ("tok1") had `generate_pkce_pair`
been called again. -/
theorem pkce_reuse_counterexample :
    attempt_verifiers (module_init ⟨0⟩) 2 = ["tok0", "tok0"] ∧
    (generate_pkce_pair (module_init ⟨0⟩).rng).1.1 ≠ (module_init ⟨0⟩).code_verifier := by
  decide

/-- Claim C8, amended: the PKCE verifier/challenge pair is generated
exactly once, at module import; every authorization attempt within the
same process reuses that same verifier. -/
theorem pkce_pair_generated_once (r : Rng) (n : Nat) :
    attempt_verifiers (module_init r) n
      = List.replicate n (module_init r).code_verifier := by
  induction n with
  | zero => rfl
  | succ m ih =>
    simp only [attempt_verifiers, authorize_attempt, List.replicate]
    exact congrArg _ ih

/-- Claim C9, counterexample.  A fetched result with only plain-text
lyrics ("Hello\nWorld") and no synced lyrics: the normalizer sets
`has_timed = true` and synthesizes one timed line at offset 0 with the
first plain line, instead of the claimed `has_timed = false` with no
timed lines. -/
theorem plain_only_counterexample :
    (convert_lrclib_to_target_json gPlainOnly).has_timed = true ∧
    (convert_lrclib_to_target_json gPlainOnly).timed_lyrics ≠ [] ∧
    (convert_lrclib_to_target_json gPlainOnly).timed_lyrics = [⟨0, "Hello"⟩] := by
  decide

/-- Claim C9, amended: for a fetched result with non-empty plain-text
lyrics and no synced lyrics, the main program's normalizer produces
`has_timed = true` with a single synthetic timed line at offset 0
carrying the first plain-text line (so the cursor would be loaded),
whereas the standalone fetcher's record has `has_timed = false` and no
timed lines as originally claimed. -/
theorem plain_only_normalization (g : GotJson) (a t pl : String)
    (hs : syncedRawOf g = none) (hp : plainOf g ≠ "") :
    (convert_lrclib_to_target_json g).has_timed = true ∧
    (convert_lrclib_to_target_json g).timed_lyrics
      = [⟨0, (pySplitLines (plainOf g)).headD ""⟩] ∧
    (fetch_lyrics a t ⟨none, some pl⟩).has_timed = false ∧
    (fetch_lyrics a t ⟨none, some pl⟩).timed_lyrics = [] := by
  have ht : timedOf g = [] := by
    unfold timedOf
    rw [hs]
  have h2 : timedWithFallback g = [⟨0, (pySplitLines (plainOf g)).headD ""⟩] := by
    unfold timedWithFallback
    rw [if_pos ⟨ht, hp⟩]
  refine ⟨?_, ?_, rfl, rfl⟩
  · simp [convert_lrclib_to_target_json, h2]
  · simp [convert_lrclib_to_target_json, h2]

/-- Claim C9, witness for the amended theorem on the concrete
plain-only response. -/
theorem plain_only_normalization_witness :
    (convert_lrclib_to_target_json gPlainOnly).has_timed = true ∧
    (convert_lrclib_to_target_json gPlainOnly).timed_lyrics
      = [⟨0, (pySplitLines (plainOf gPlainOnly)).headD ""⟩] ∧
    (fetch_lyrics "Artist" "Title" ⟨none, some "Hello"⟩).has_timed = false ∧
    (fetch_lyrics "Artist" "Title" ⟨none, some "Hello"⟩).timed_lyrics = [] :=
  plain_only_normalization gPlainOnly "Artist" "Title" "Hello" (by decide) (by decide)

/-- Claim C10: for equal-length times and lines, any stored position
(negative or past the end) and any timestamp, `lyric_for_time` never
indexes out of bounds: the text lookup succeeds, the returned index is
within bounds when the track is non-empty, the text is `""` when it is
empty, and the returned index is stored back as the new position. -/
theorem resolve_safe (times : List ℚ) (lines : List String) (p : Int) (t : ℚ)
    (hlen : times.length = lines.length) :
    ((lyric_for_time ⟨times, lines, p⟩ t).text).isSome = true ∧
    (times ≠ [] → (lyric_for_time ⟨times, lines, p⟩ t).idx < times.length) ∧
    (times = [] → (lyric_for_time ⟨times, lines, p⟩ t).text = some "") ∧
    (lyric_for_time ⟨times, lines, p⟩ t).state.pos_idx
      = ((lyric_for_time ⟨times, lines, p⟩ t).idx : Int) := by
  by_cases hne : times = []
  · subst hne
    have hl : lines = [] := by
      rw [List.length_nil] at hlen
      exact List.length_eq_zero.mp hlen.symm
    subst hl
    exact ⟨rfl, fun h => absurd rfl h, fun _ => rfl, rfl⟩
  · have hidxlt : resolveIdx times p t < times.length := resolveIdx_lt times p t hne
    have hlne : lines.isEmpty = false := by
      cases lines with
      | nil =>
        rw [List.length_nil] at hlen
        exact absurd (List.length_eq_zero.mp hlen) hne
      | cons a as => rfl
    have htext : (lyric_for_time ⟨times, lines, p⟩ t).text
        = lines.get? (resolveIdx times p t) := by
      simp [lyric_for_time, hlne]
    refine ⟨?_, fun _ => hidxlt, fun h => absurd h hne, rfl⟩
    rw [htext]
    have hnn : lines.get? (resolveIdx times p t) ≠ none := by
      intro hnone
      have := List.get?_eq_none.mp hnone
      omega
    exact Option.ne_none_iff_isSome.mp hnn

/-- Claim C10, witness at a two-line track with a negative stored
position. -/
theorem resolve_safe_witness :
    ((lyric_for_time ⟨[0, 5], ["a", "b"], -3⟩ 1).text).isSome = true ∧
    (([0, 5] : List ℚ) ≠ [] →
      (lyric_for_time ⟨[0, 5], ["a", "b"], -3⟩ 1).idx < ([0, 5] : List ℚ).length) ∧
    (([0, 5] : List ℚ) = [] → (lyric_for_time ⟨[0, 5], ["a", "b"], -3⟩ 1).text = some "") ∧
    (lyric_for_time ⟨[0, 5], ["a", "b"], -3⟩ 1).state.pos_idx
      = ((lyric_for_time ⟨[0, 5], ["a", "b"], -3⟩ 1).idx : Int) :=
  resolve_safe [0, 5] ["a", "b"] (-3) 1 (by rfl)

end Spotify
